import Mathlib

/-!
Verification of the covering-tiles core of the maplibre-gl-js fork
(tile quadtree traversal engine, its planar/mercator duplicate, and the
mercator details provider).

Sources embedded here:
* `src/geo/projection/covering_tiles.ts` — `isTileVisible`, the
  parameterized `coveringTiles` engine and the `CoveringTilesDetails`
  interface;
* `src/geo/projection/mercator_covering_tiles.ts` — the duplicated
  planar-only `mercatorCoveringTiles` routine together with its local
  `distanceToTile2d`, `getWrap` and (buggy) `getTileAABB`;
* the fixed `MercatorCoveringTilesDetailsProvider`.

Modelling conventions:
* JS numbers are embedded as exact rationals (`ℚ`); zoom levels and tile
  coordinates as integers (`ℤ`).  IEEE-754 rounding is not modelled.
* The geometry collaborator (`src/util/primitives.ts`: `Aabb.intersectsFrustum`,
  `Aabb.intersectsPlane`, `Aabb.distanceX/Y`) and the irrational builtins
  `Math.hypot`/`Math.sqrt` are not part of the sources; they are passed in as
  an abstract `Primitives` record, so every theorem quantifies over them.
* The per-tile variable-zoom expression (covering_tiles.ts lines 148-150)
  combines the transcendental reals `Math.atan`, `Math.cos` and `scaleZoom`
  (= log2, from `transform_helper.ts`, also outside the sources); its
  real-valued bracketed sub-expression is embedded as an abstract oracle
  `lodExpr` of its rational inputs, with the source's `roundZoom ? round :
  floor` and `Math.max(0, …)` / `Math.min(…, maxZoom)` steps kept concrete.
* `transform.coveringZoomLevel(options)` is a method of the external
  transform collaborator and is a function-valued field of `Transform`.
* JS `<<` is 32-bit: both routines use `x << 1`, `y << 1`, `1 << z` and
  `x << dz`; `jsShl` embeds ECMAScript int32 shift semantics exactly.
* A JS exception is embedded as `Option.none` (the mercator copy's
  `getTileAABB` throws a `ReferenceError` when terrain is configured, see
  its definition below).
-/

/-- `IntersectionResult` from `src/util/primitives.ts`: the tri-state verdict
of a box-vs-frustum or box-vs-plane test.  Constructors correspond to the
source's `None`, `Partial`, `Full`. -/
inductive IntersectionResult where
  | iNone
  | iPartialOverlap
  | iFull
deriving DecidableEq

/-- Axis-aligned bounding box: min/max corner in normalized projected space
plus the elevation range (the `Aabb` class of `src/util/primitives.ts`,
used here only as constructed data). -/
structure Aabb where
  minX : ℚ
  minY : ℚ
  minZ : ℚ
  maxX : ℚ
  maxY : ℚ
  maxZ : ℚ
deriving DecidableEq

/-- A tile address `{x, y, z}` as passed around by the traversal code. -/
structure TileXYZ where
  x : ℤ
  y : ℤ
  z : ℤ
deriving DecidableEq

/-- `OverscaledTileID` (`src/source/tile_id.ts`), as constructed by
`new OverscaledTileID(overscaledZ, wrap, z, x, y)`. -/
structure OverscaledTileID where
  overscaledZ : ℤ
  wrap : ℤ
  canonicalZ : ℤ
  x : ℤ
  y : ℤ
deriving DecidableEq

/-- `MercatorCoordinate`: a 3D position in normalized mercator space. -/
structure MercatorCoordinate where
  x : ℚ
  y : ℚ
  z : ℚ
deriving DecidableEq

/-- The terrain collaborator: `getMinMaxElevation(tileID)` returns optional
`minElevation` and `maxElevation` fields (a cache miss yields `none`). -/
structure Terrain where
  getMinMaxElevation : OverscaledTileID → Option ℚ × Option ℚ

/-- `CoveringTilesOptions` (`src/geo/transform_interface.ts`): the fields the
traversal code reads.  `minzoom`/`maxzoom` are `Option` because the source
tests them with `options.minzoom || 0` and
`options.maxzoom !== undefined ? options.maxzoom : transform.maxZoom`. -/
structure CoveringTilesOptions where
  tileSize : ℚ
  minzoom : Option ℤ
  maxzoom : Option ℤ
  roundZoom : Bool
  reparseOverscaled : Bool
  terrain : Option Terrain

/-- The camera/transform collaborator (`IReadonlyTransform`): only the fields
and methods the covering-tiles code actually reads.  `zoom`, `pitchBehavior`,
`tileSize` and `fov` enter only through the transcendental LOD expression
(see `lodExpr` in the traversal contexts) and therefore do not appear as
separate fields here; `pitch` and `paddingTop` are read directly by the
`allowVariableZoom` computations. -/
structure Transform where
  coveringZoomLevel : CoveringTilesOptions → ℤ
  maxZoom : ℤ
  elevation : ℚ
  renderWorldCopies : Bool
  pitch : ℚ
  paddingTop : ℚ

/-- `CoveringTilesResult` (covering_tiles.ts lines 8-12). -/
structure CoveringTilesResult where
  tileID : OverscaledTileID
  distanceSq : ℚ
  tileDistanceToCamera : ℚ
deriving DecidableEq

/-- `CoveringTilesStackEntry` (covering_tiles.ts lines 14-20). -/
structure StackEntry where
  zoom : ℤ
  x : ℤ
  y : ℤ
  wrap : ℤ
  fullyVisible : Bool
deriving DecidableEq

/-- The external geometry collaborator of `src/util/primitives.ts` together
with the irrational JS builtins.  Modelled from the spec: "box-vs-frustum and
box-vs-plane intersection tests returning {None, Partial, Full}; point-to-box
axis-aligned distance functions.  Supplied, not implemented, by the core."
`hypot` and `sqrt` stand for `Math.hypot`/`Math.sqrt`, whose values are
irrational in general.  `F` is the opaque frustum type, `P` the opaque
clipping-plane (`vec4`) type. -/
structure Primitives (F P : Type) where
  intersectsFrustum : Aabb → F → IntersectionResult
  intersectsPlane : Aabb → P → IntersectionResult
  distanceX : Aabb → ℚ × ℚ → ℚ
  distanceY : Aabb → ℚ × ℚ → ℚ
  hypot : ℚ → ℚ → ℚ
  sqrt : ℚ → ℚ

/-- `CoveringTilesDetails` (covering_tiles.ts lines 22-48): the strategy
record injected into the parameterized traversal engine. -/
structure CoveringTilesDetails where
  distanceToTile2d : ℚ → ℚ → TileXYZ → Aabb → ℚ
  getWrap : MercatorCoordinate → TileXYZ → ℤ → ℤ
  getTileAABB : TileXYZ → ℤ → ℚ → CoveringTilesOptions → Aabb
  allowVariableZoom : Bool

/-- ECMAScript `ToInt32`: wrap an integer into `[-2^31, 2^31)`. -/
def toInt32 (a : ℤ) : ℤ := (a + 2 ^ 31) % 2 ^ 32 - 2 ^ 31

/-- ECMAScript `a << b`: `ToInt32(a)` shifted left by `ToUint32(b) mod 32`,
the result wrapped back to int32. -/
def jsShl (a b : ℤ) : ℤ := toInt32 (toInt32 a * 2 ^ (b % 32).toNat)

/-- `(options.roundZoom ? Math.round : Math.floor)(q)`.  `Math.round x` is
`⌊x + 1/2⌋`, which is exactly Mathlib's `round` on `ℚ`. -/
def roundOrFloor (roundZoom : Bool) (q : ℚ) : ℤ :=
  if roundZoom then round q else ⌊q⌋

/-- `isTileVisible` (covering_tiles.ts lines 54-71): combine the frustum test
with the optional clipping-plane test into one tri-state verdict. -/
def isTileVisible {F P : Type} (prim : Primitives F P) (frustum : F)
    (aabb : Aabb) (plane : Option P) : IntersectionResult :=
  let frustumTest := prim.intersectsFrustum aabb frustum
  match plane with
  | none => frustumTest
  | some p =>
    let planeTest := prim.intersectsPlane aabb p
    if frustumTest = IntersectionResult.iNone ∨ planeTest = IntersectionResult.iNone then
      IntersectionResult.iNone
    else if frustumTest = IntersectionResult.iFull ∧ planeTest = IntersectionResult.iFull then
      IntersectionResult.iFull
    else
      IntersectionResult.iPartialOverlap

/-- The comparator of the final `result.sort((a, b) => a.distanceSq -
b.distanceSq)`: JS `Array.prototype.sort` is a stable sort and the comparator
orders by ascending `distanceSq`.  The stable sort itself is modelled by
`List.insertionSort entryLe` (insertion sort is stable, and a stable sort of
a given list by a given total preorder is unique). -/
def entryLe (a b : CoveringTilesResult) : Prop := a.distanceSq ≤ b.distanceSq

instance : DecidableRel entryLe := fun a b =>
  inferInstanceAs (Decidable (a.distanceSq ≤ b.distanceSq))

instance : IsTotal CoveringTilesResult entryLe :=
  ⟨fun a b => le_total a.distanceSq b.distanceSq⟩

instance : IsTrans CoveringTilesResult entryLe :=
  ⟨fun _ _ _ hab hbc => le_trans hab hbc⟩

/-- The stack seeding shared verbatim by both routines (covering_tiles.ts
lines 98-120): roots at wrap `-1, 1, -2, 2, -3, 3` are pushed first when
`renderWorldCopies` is set, then the primary root at wrap `0`.  The list
head is the top of the stack (the end of the JS array), so the pushes appear
here in reverse order. -/
def seedStack (renderWorldCopies : Bool) : List StackEntry :=
  let newRootTile : ℤ → StackEntry := fun wrap =>
    { zoom := 0, x := 0, y := 0, wrap := wrap, fullyVisible := false }
  if renderWorldCopies then
    [newRootTile 0, newRootTile 3, newRootTile (-3), newRootTile 2,
     newRootTile (-2), newRootTile 1, newRootTile (-1)]
  else
    [newRootTile 0]

/-- Structural bound on the number of loop iterations a stack can still
cause: a node at `zoom` accounts for `5 ^ (maxZoom - zoom)` iterations (a
node either is consumed, or is replaced by its four children one level
deeper).  Used as the fuel of the loop embeddings. -/
def stackWeight (maxZoom : ℤ) (stack : List StackEntry) : ℕ :=
  (stack.map fun e => 5 ^ (maxZoom - e.zoom).toNat).sum

/-- The per-invocation constants of the parameterized engine
(covering_tiles.ts lines 86-96) together with its inputs.  `lodExpr` is the
oracle for the real-valued bracketed expression of lines 148-149 (see the
module docstring); its arguments are `distToTile2d`, `distToTile3d`,
`distanceToCenter3d` and `distanceZ`. -/
structure EngineCtx (F P : Type) where
  prim : Primitives F P
  lodExpr : ℚ → ℚ → ℚ → ℚ → ℚ
  frustum : F
  plane : Option P
  cameraCoord : MercatorCoordinate
  centerCoord : MercatorCoordinate
  options : CoveringTilesOptions
  details : CoveringTilesDetails
  desiredZ : ℤ
  minZoom : ℤ
  maxZoom : ℤ
  nominalZ : ℤ
  cameraPoint : ℚ × ℚ
  centerPoint : ℚ × ℚ
  distanceZ : ℚ
  distanceToCenter3d : ℚ
  elevation : ℚ

/-- `options.minzoom || 0` (covering_tiles.ts line 87). -/
def configMinZoom (options : CoveringTilesOptions) : ℤ := options.minzoom.getD 0

/-- `options.maxzoom !== undefined ? options.maxzoom : transform.maxZoom`
(covering_tiles.ts line 88). -/
def effectiveMaxZoom (transform : Transform) (options : CoveringTilesOptions) : ℤ :=
  options.maxzoom.getD transform.maxZoom

/-- `nominalZ = Math.min(Math.max(0, desiredZ), maxZoom)` (covering_tiles.ts
line 89): the clamped screen-wide desired zoom. -/
def nominalZoom (transform : Transform) (options : CoveringTilesOptions) : ℤ :=
  min (max 0 (transform.coveringZoomLevel options)) (effectiveMaxZoom transform options)

/-- Lines 86-96 of covering_tiles.ts: compute the per-invocation constants.
The third (always `0`) component of `cameraPoint`/`centerPoint` is dropped;
the source never reads it. -/
def mkEngineCtx {F P : Type} (prim : Primitives F P) (lodExpr : ℚ → ℚ → ℚ → ℚ → ℚ)
    (transform : Transform) (frustum : F) (plane : Option P)
    (cameraCoord centerCoord : MercatorCoordinate)
    (options : CoveringTilesOptions) (details : CoveringTilesDetails) :
    EngineCtx F P :=
  let desiredZ := transform.coveringZoomLevel options
  let minZoom := configMinZoom options
  let maxZoom := effectiveMaxZoom transform options
  let nominalZ := nominalZoom transform options
  let numTiles : ℚ := (2 : ℚ) ^ nominalZ
  let distanceToCenter2d :=
    prim.hypot (centerCoord.x - cameraCoord.x) (centerCoord.y - cameraCoord.y)
  let distanceZ := |centerCoord.z - cameraCoord.z|
  { prim := prim, lodExpr := lodExpr, frustum := frustum, plane := plane,
    cameraCoord := cameraCoord, centerCoord := centerCoord,
    options := options, details := details,
    desiredZ := desiredZ, minZoom := minZoom, maxZoom := maxZoom,
    nominalZ := nominalZ,
    cameraPoint := (numTiles * cameraCoord.x, numTiles * cameraCoord.y),
    centerPoint := (numTiles * centerCoord.x, numTiles * centerCoord.y),
    distanceZ := distanceZ,
    distanceToCenter3d := prim.hypot distanceToCenter2d distanceZ,
    elevation := transform.elevation }

/-- Lines 130-138 of covering_tiles.ts: visibility of a tile is not required
if any of its ancestors was fully visible; otherwise classify the tile and
prune (`none`) on `None`, else record whether it is fully visible. -/
def nodeVisibility {F P : Type} (c : EngineCtx F P) (it : StackEntry) (aabb : Aabb) :
    Option Bool :=
  if it.fullyVisible then some true
  else
    match isTileVisible c.prim c.frustum aabb c.plane with
    | IntersectionResult.iNone => none
    | IntersectionResult.iPartialOverlap => some false
    | IntersectionResult.iFull => some true

/-- Lines 140-152 of covering_tiles.ts: the per-node desired zoom
`thisTileDesiredZ` — `desiredZ`, recomputed by the variable-zoom formula when
`details.allowVariableZoom`, then clamped below by `Math.max(0, …)`. -/
def thisTileDesiredZoom {F P : Type} (c : EngineCtx F P) (tileID : TileXYZ)
    (aabb : Aabb) : ℤ :=
  let distToTile2d := c.details.distanceToTile2d c.cameraCoord.x c.cameraCoord.y tileID aabb
  let distToTile3d := c.prim.hypot distToTile2d c.distanceZ
  max 0 (if c.details.allowVariableZoom then
           roundOrFloor c.options.roundZoom
             (c.lodExpr distToTile2d distToTile3d c.distanceToCenter3d c.distanceZ)
         else c.desiredZ)

/-- Lines 163-172 of covering_tiles.ts: the result entry pushed when a node
is emitted.  `wrap2` is the node's wrap after the `getWrap` reassignment and
`thisTileDesiredZ` the node's (lower-clamped) target zoom. -/
def emitEntry {F P : Type} (c : EngineCtx F P) (it : StackEntry)
    (wrap2 thisTileDesiredZ : ℤ) : CoveringTilesResult :=
  let x := it.x
  let y := it.y
  let dz := c.nominalZ - it.zoom
  let dx := c.cameraPoint.1 - 1/2 - (jsShl x dz : ℚ)
  let dy := c.cameraPoint.2 - 1/2 - (jsShl y dz : ℚ)
  let overscaledZ := if c.options.reparseOverscaled then thisTileDesiredZ else it.zoom
  { tileID := { overscaledZ := if it.zoom = c.maxZoom then overscaledZ else it.zoom,
                wrap := wrap2, canonicalZ := it.zoom, x := x, y := y },
    distanceSq := (c.centerPoint.1 - 1/2 - (x : ℚ)) ^ 2 +
                  (c.centerPoint.2 - 1/2 - (y : ℚ)) ^ 2,
    tileDistanceToCamera := c.prim.sqrt (dx * dx + dy * dy) }

/-- Lines 176-181 of covering_tiles.ts: the four children pushed when a node
is subdivided (`childX = (x << 1) + (i % 2)`, `childY = (y << 1) + (i >> 1)`
for `i` in 0..3), in stack order — the list head is the stack top, so child
`i = 3` comes first. -/
def engineChildren (it : StackEntry) (wrap2 : ℤ) (fullyVisible : Bool) :
    List StackEntry :=
  [⟨it.zoom + 1, jsShl it.x 1 + 1, jsShl it.y 1 + 1, wrap2, fullyVisible⟩,
   ⟨it.zoom + 1, jsShl it.x 1, jsShl it.y 1 + 1, wrap2, fullyVisible⟩,
   ⟨it.zoom + 1, jsShl it.x 1 + 1, jsShl it.y 1, wrap2, fullyVisible⟩,
   ⟨it.zoom + 1, jsShl it.x 1, jsShl it.y 1, wrap2, fullyVisible⟩]

/-- The depth-first traversal loop of the parameterized engine
(covering_tiles.ts lines 122-182), fuel-indexed.  The fuel is a structural
iteration budget; the callers pass `stackWeight`, which is proved sufficient
(`coveringTilesLoop_fuel_irrelevant`), so the truncation branch is
unreachable in every use below. -/
def coveringTilesLoop {F P : Type} (c : EngineCtx F P) :
    ℕ → List StackEntry → List CoveringTilesResult → List CoveringTilesResult
  | _, [], result => result
  | 0, _ :: _, result => result
  | fuel + 1, it :: rest, result =>
    let tileID : TileXYZ := ⟨it.x, it.y, it.zoom⟩
    let aabb := c.details.getTileAABB tileID it.wrap c.elevation c.options
    match nodeVisibility c it aabb with
    | none => coveringTilesLoop c fuel rest result
    | some fullyVisible =>
      let thisTileDesiredZ := thisTileDesiredZoom c tileID aabb
      let z := min thisTileDesiredZ c.maxZoom
      let wrap2 := c.details.getWrap c.centerCoord tileID it.wrap
      if z ≤ it.zoom then
        if it.zoom < c.minZoom then
          coveringTilesLoop c fuel rest result
        else
          coveringTilesLoop c fuel rest (result ++ [emitEntry c it wrap2 thisTileDesiredZ])
      else
        coveringTilesLoop c fuel (engineChildren it wrap2 fullyVisible ++ rest) result

/-- The sorted accumulated result entries of the parameterized engine:
everything of `coveringTiles` (covering_tiles.ts line 85-185) except the
final `.map(a => a.tileID)` projection. -/
def coveringTilesEntries {F P : Type} (prim : Primitives F P)
    (lodExpr : ℚ → ℚ → ℚ → ℚ → ℚ) (transform : Transform) (frustum : F)
    (plane : Option P) (cameraCoord centerCoord : MercatorCoordinate)
    (options : CoveringTilesOptions) (details : CoveringTilesDetails) :
    List CoveringTilesResult :=
  let c := mkEngineCtx prim lodExpr transform frustum plane cameraCoord centerCoord options details
  let stack := seedStack transform.renderWorldCopies
  List.insertionSort entryLe (coveringTilesLoop c (stackWeight c.maxZoom stack) stack [])

/-- `coveringTiles` (covering_tiles.ts lines 85-185): the parameterized
traversal engine. -/
def coveringTiles {F P : Type} (prim : Primitives F P)
    (lodExpr : ℚ → ℚ → ℚ → ℚ → ℚ) (transform : Transform) (frustum : F)
    (plane : Option P) (cameraCoord centerCoord : MercatorCoordinate)
    (options : CoveringTilesOptions) (details : CoveringTilesDetails) :
    List OverscaledTileID :=
  (coveringTilesEntries prim lodExpr transform frustum plane cameraCoord
    centerCoord options details).map (fun a => a.tileID)

/-- `distanceToTile2d` of mercator_covering_tiles.ts (lines 9-13): the
Euclidean distance from the camera's planar position to the nearest point of
the box. -/
def MercatorCoveringTiles.distanceToTile2d {F P : Type} (prim : Primitives F P)
    (pointX pointY : ℚ) (_tileID : TileXYZ) (aabb : Aabb) : ℚ :=
  let distanceX := prim.distanceX aabb (pointX, pointY)
  let distanceY := prim.distanceY aabb (pointX, pointY)
  prim.hypot distanceX distanceY

/-- `getWrap` of mercator_covering_tiles.ts (lines 16-18): the planar variant
is wrap-invariant and returns the parent's wrap unchanged. -/
def MercatorCoveringTiles.getWrap (_centerCoord : MercatorCoordinate)
    (_tileID : TileXYZ) (parentWrap : ℤ) : ℤ := parentWrap

/-- `getTileAABB` of mercator_covering_tiles.ts (lines 24-36).  The terrain
branch of the source reads

  `const tileID = new OverscaledTileID(tileID.z, wrap, tileID.z, tileID.x, tileID.y);`

the inner `const tileID` shadows the parameter inside the whole block, so the
initializer reads the inner binding while it is still in its temporal dead
zone: evaluating this line throws a `ReferenceError` (TypeScript error 2448).
The thrown exception is embedded as `none`. -/
def MercatorCoveringTiles.getTileAABB (tileID : TileXYZ) (wrap : ℤ)
    (elevation : ℚ) (options : CoveringTilesOptions) : Option Aabb :=
  if options.terrain.isSome then
    none
  else
    -- minElevation = maxElevation = elevation in the terrain-free path
    let numTiles : ℤ := jsShl 1 tileID.z
    some { minX := (wrap : ℚ) + (tileID.x : ℚ) / (numTiles : ℚ),
           minY := (tileID.y : ℚ) / (numTiles : ℚ),
           minZ := elevation,
           maxX := (wrap : ℚ) + ((tileID.x : ℚ) + 1) / (numTiles : ℚ),
           maxY := ((tileID.y : ℚ) + 1) / (numTiles : ℚ),
           maxZ := elevation }

/-- The per-invocation constants of the duplicated planar routine
(mercator_covering_tiles.ts lines 47-61).  `allowZariableZoom` keeps the
source's spelling of its local variable (line 61). -/
structure MercatorCtx (F P : Type) where
  prim : Primitives F P
  lodExpr : ℚ → ℚ → ℚ → ℚ → ℚ
  frustum : F
  plane : Option P
  cameraCoord : MercatorCoordinate
  centerCoord : MercatorCoordinate
  options : CoveringTilesOptions
  allowZariableZoom : Bool
  desiredZ : ℤ
  minZoom : ℤ
  maxZoom : ℤ
  nominalZ : ℤ
  cameraPoint : ℚ × ℚ
  centerPoint : ℚ × ℚ
  distanceZ : ℚ
  distanceToCenter3d : ℚ
  elevation : ℚ

/-- Lines 47-61 of mercator_covering_tiles.ts.  `allowZariableZoom` is
`options.terrain || transform.pitch > 60.0 || transform.padding.top >= 0.1`
(only its truthiness is ever used). -/
def mkMercatorCtx {F P : Type} (prim : Primitives F P) (lodExpr : ℚ → ℚ → ℚ → ℚ → ℚ)
    (transform : Transform) (frustum : F) (plane : Option P)
    (cameraCoord centerCoord : MercatorCoordinate)
    (options : CoveringTilesOptions) : MercatorCtx F P :=
  let desiredZ := transform.coveringZoomLevel options
  let minZoom := configMinZoom options
  let maxZoom := effectiveMaxZoom transform options
  let nominalZ := nominalZoom transform options
  let numTiles : ℚ := (2 : ℚ) ^ nominalZ
  let distanceToCenter2d :=
    prim.hypot (centerCoord.x - cameraCoord.x) (centerCoord.y - cameraCoord.y)
  let distanceZ := |centerCoord.z - cameraCoord.z|
  { prim := prim, lodExpr := lodExpr, frustum := frustum, plane := plane,
    cameraCoord := cameraCoord, centerCoord := centerCoord, options := options,
    allowZariableZoom :=
      options.terrain.isSome || decide (60 < transform.pitch) ||
        decide (1/10 ≤ transform.paddingTop),
    desiredZ := desiredZ, minZoom := minZoom, maxZoom := maxZoom,
    nominalZ := nominalZ,
    cameraPoint := (numTiles * cameraCoord.x, numTiles * cameraCoord.y),
    centerPoint := (numTiles * centerCoord.x, numTiles * centerCoord.y),
    distanceZ := distanceZ,
    distanceToCenter3d := prim.hypot distanceToCenter2d distanceZ,
    elevation := transform.elevation }

/-- Lines 95-103 of mercator_covering_tiles.ts: the duplicated visibility
step of the planar routine.  Its call site reads
`isTileVisible(frustum, plane, aabb)`, matching the parameter order of the
`isTileVisible` export it was written against (frustum, plane, aabb); the
classification computed — frustum test combined with plane test on the
node's box — is the same one `isTileVisible` above performs, so it is
embedded through that single definition with its covering_tiles.ts
parameter order. -/
def mercatorNodeVisibility {F P : Type} (c : MercatorCtx F P) (it : StackEntry)
    (aabb : Aabb) : Option Bool :=
  if it.fullyVisible then some true
  else
    match isTileVisible c.prim c.frustum aabb c.plane with
    | IntersectionResult.iNone => none
    | IntersectionResult.iPartialOverlap => some false
    | IntersectionResult.iFull => some true

/-- Lines 105-117 of mercator_covering_tiles.ts: the duplicated per-node
desired-zoom computation of the planar routine. -/
def mercatorThisTileDesiredZoom {F P : Type} (c : MercatorCtx F P)
    (tileID : TileXYZ) (aabb : Aabb) : ℤ :=
  let distToTile2d :=
    MercatorCoveringTiles.distanceToTile2d c.prim c.cameraCoord.x c.cameraCoord.y tileID aabb
  let distToTile3d := c.prim.hypot distToTile2d c.distanceZ
  max 0 (if c.allowZariableZoom then
           roundOrFloor c.options.roundZoom
             (c.lodExpr distToTile2d distToTile3d c.distanceToCenter3d c.distanceZ)
         else c.desiredZ)

/-- Lines 128-137 of mercator_covering_tiles.ts: the duplicated result-entry
construction of the planar routine. -/
def mercatorEmitEntry {F P : Type} (c : MercatorCtx F P) (it : StackEntry)
    (wrap2 thisTileDesiredZ : ℤ) : CoveringTilesResult :=
  let x := it.x
  let y := it.y
  let dz := c.nominalZ - it.zoom
  let dx := c.cameraPoint.1 - 1/2 - (jsShl x dz : ℚ)
  let dy := c.cameraPoint.2 - 1/2 - (jsShl y dz : ℚ)
  let overscaledZ := if c.options.reparseOverscaled then thisTileDesiredZ else it.zoom
  { tileID := { overscaledZ := if it.zoom = c.maxZoom then overscaledZ else it.zoom,
                wrap := wrap2, canonicalZ := it.zoom, x := x, y := y },
    distanceSq := (c.centerPoint.1 - 1/2 - (x : ℚ)) ^ 2 +
                  (c.centerPoint.2 - 1/2 - (y : ℚ)) ^ 2,
    tileDistanceToCamera := c.prim.sqrt (dx * dx + dy * dy) }

/-- Lines 141-146 of mercator_covering_tiles.ts: the duplicated child pushes
of the planar routine, in stack order (head = top). -/
def mercatorChildren (it : StackEntry) (wrap2 : ℤ) (fullyVisible : Bool) :
    List StackEntry :=
  [⟨it.zoom + 1, jsShl it.x 1 + 1, jsShl it.y 1 + 1, wrap2, fullyVisible⟩,
   ⟨it.zoom + 1, jsShl it.x 1, jsShl it.y 1 + 1, wrap2, fullyVisible⟩,
   ⟨it.zoom + 1, jsShl it.x 1 + 1, jsShl it.y 1, wrap2, fullyVisible⟩,
   ⟨it.zoom + 1, jsShl it.x 1, jsShl it.y 1, wrap2, fullyVisible⟩]

/-- The depth-first traversal loop of the duplicated planar routine
(mercator_covering_tiles.ts lines 87-147), fuel-indexed like
`coveringTilesLoop`.  A `none` result is the `ReferenceError` thrown by
`MercatorCoveringTiles.getTileAABB` when terrain is configured. -/
def mercatorCoveringTilesLoop {F P : Type} (c : MercatorCtx F P) :
    ℕ → List StackEntry → List CoveringTilesResult →
    Option (List CoveringTilesResult)
  | _, [], result => some result
  | 0, _ :: _, result => some result
  | fuel + 1, it :: rest, result =>
    let tileID : TileXYZ := ⟨it.x, it.y, it.zoom⟩
    match MercatorCoveringTiles.getTileAABB tileID it.wrap c.elevation c.options with
    | none => none
    | some aabb =>
      match mercatorNodeVisibility c it aabb with
      | none => mercatorCoveringTilesLoop c fuel rest result
      | some fullyVisible =>
        let thisTileDesiredZ := mercatorThisTileDesiredZoom c tileID aabb
        let z := min thisTileDesiredZ c.maxZoom
        let wrap2 := MercatorCoveringTiles.getWrap c.centerCoord tileID it.wrap
        if z ≤ it.zoom then
          if it.zoom < c.minZoom then
            mercatorCoveringTilesLoop c fuel rest result
          else
            mercatorCoveringTilesLoop c fuel rest
              (result ++ [mercatorEmitEntry c it wrap2 thisTileDesiredZ])
        else
          mercatorCoveringTilesLoop c fuel (mercatorChildren it wrap2 fullyVisible ++ rest) result

/-- `mercatorCoveringTiles` (mercator_covering_tiles.ts lines 46-150): the
duplicated traversal routine hard-coded for the planar strategy.  `none`
means the invocation throws (which happens whenever `options.terrain` is
configured, via `MercatorCoveringTiles.getTileAABB`). -/
def mercatorCoveringTiles {F P : Type} (prim : Primitives F P)
    (lodExpr : ℚ → ℚ → ℚ → ℚ → ℚ) (transform : Transform) (frustum : F)
    (plane : Option P) (cameraCoord centerCoord : MercatorCoordinate)
    (options : CoveringTilesOptions) : Option (List OverscaledTileID) :=
  let c := mkMercatorCtx prim lodExpr transform frustum plane cameraCoord centerCoord options
  let stack := seedStack transform.renderWorldCopies
  (mercatorCoveringTilesLoop c (stackWeight c.maxZoom stack) stack []).map
    (fun result => (List.insertionSort entryLe result).map (fun a => a.tileID))

/-- `MercatorCoveringTilesDetailsProvider.distanceToTile2d`
(mercator_covering_tiles.ts, provider class lines 159-163). -/
def MercatorCoveringTilesDetailsProvider.distanceToTile2d {F P : Type}
    (prim : Primitives F P) (pointX pointY : ℚ) (_tileID : TileXYZ) (aabb : Aabb) : ℚ :=
  let distanceX := prim.distanceX aabb (pointX, pointY)
  let distanceY := prim.distanceY aabb (pointX, pointY)
  prim.hypot distanceX distanceY

/-- `MercatorCoveringTilesDetailsProvider.getWrap` (lines 166-168). -/
def MercatorCoveringTilesDetailsProvider.getWrap (_centerCoord : MercatorCoordinate)
    (_tileID : TileXYZ) (parentWrap : ℤ) : ℤ := parentWrap

/-- `MercatorCoveringTilesDetailsProvider.getTileAABB` (lines 174-186): the
fixed twin of `MercatorCoveringTiles.getTileAABB` — the inner constant is
named `overscaledTileID`, so the terrain lookup works.  `minMax.minElevation
?? elevation` is `Option.getD`. -/
def MercatorCoveringTilesDetailsProvider.getTileAABB (tileID : TileXYZ) (wrap : ℤ)
    (elevation : ℚ) (options : CoveringTilesOptions) : Aabb :=
  let elevRange : ℚ × ℚ :=
    match options.terrain with
    | some terrain =>
      let overscaledTileID : OverscaledTileID :=
        { overscaledZ := tileID.z, wrap := wrap, canonicalZ := tileID.z,
          x := tileID.x, y := tileID.y }
      let minMax := terrain.getMinMaxElevation overscaledTileID
      (minMax.1.getD elevation, minMax.2.getD elevation)
    | none => (elevation, elevation)
  let numTiles : ℤ := jsShl 1 tileID.z
  { minX := (wrap : ℚ) + (tileID.x : ℚ) / (numTiles : ℚ),
    minY := (tileID.y : ℚ) / (numTiles : ℚ),
    minZ := elevRange.1,
    maxX := (wrap : ℚ) + ((tileID.x : ℚ) + 1) / (numTiles : ℚ),
    maxY := ((tileID.y : ℚ) + 1) / (numTiles : ℚ),
    maxZ := elevRange.2 }

/-- `MercatorCoveringTilesDetailsProvider.allowVariableZoom` (lines 188-190):
`!!options.terrain || transform.pitch > 60.0 || transform.padding.top >= 0.1`. -/
def MercatorCoveringTilesDetailsProvider.allowVariableZoom (transform : Transform)
    (options : CoveringTilesOptions) : Bool :=
  options.terrain.isSome || decide (60 < transform.pitch) ||
    decide (1/10 ≤ transform.paddingTop)

/-- The `CoveringTilesDetails` record obtained by instantiating the
parameterized engine with the planar provider: its `getTileAABB`,
`distanceToTile2d`, `getWrap`, and `allowVariableZoom` evaluated at the
given transform and options. -/
def mercatorDetails {F P : Type} (prim : Primitives F P) (transform : Transform)
    (options : CoveringTilesOptions) : CoveringTilesDetails :=
  { distanceToTile2d := MercatorCoveringTilesDetailsProvider.distanceToTile2d prim,
    getWrap := MercatorCoveringTilesDetailsProvider.getWrap,
    getTileAABB := MercatorCoveringTilesDetailsProvider.getTileAABB,
    allowVariableZoom := MercatorCoveringTilesDetailsProvider.allowVariableZoom transform options }

/-!  Concrete instantiations used by witnesses and counterexamples. -/

/-- A geometry collaborator over trivial frustum/plane types whose tests
always answer `Partial` (every tile straddles the view boundary). -/
def primPartial : Primitives Unit Unit :=
  { intersectsFrustum := fun _ _ => IntersectionResult.iPartialOverlap,
    intersectsPlane := fun _ _ => IntersectionResult.iPartialOverlap,
    distanceX := fun _ _ => 0, distanceY := fun _ _ => 0,
    hypot := fun a b => a + b, sqrt := fun _ => 0 }

/-- A geometry collaborator whose frustum test answers `Full` and whose
plane test answers `Partial`. -/
def primFullFrustum : Primitives Unit Unit :=
  { intersectsFrustum := fun _ _ => IntersectionResult.iFull,
    intersectsPlane := fun _ _ => IntersectionResult.iPartialOverlap,
    distanceX := fun _ _ => 0, distanceY := fun _ _ => 0,
    hypot := fun a b => a + b, sqrt := fun _ => 0 }

/-- The constant-zero LOD oracle. -/
def lodZero : ℚ → ℚ → ℚ → ℚ → ℚ := fun _ _ _ _ => 0

/-- A terrain provider with an empty elevation cache (both optional fields
absent, so the engine falls back to the scalar elevation). -/
def terrain0 : Terrain := ⟨fun _ => (none, none)⟩

/-- A transform whose `coveringZoomLevel` is the constant `dz`, not pitched,
without world copies. -/
def transformZ (dz : ℤ) : Transform :=
  { coveringZoomLevel := fun _ => dz, maxZoom := 0, elevation := 0,
    renderWorldCopies := false, pitch := 0, paddingTop := 0 }

/-- Options with the given `maxzoom`, `reparseOverscaled` and terrain;
`minzoom` unset, `roundZoom` off. -/
def mkOpts (mz : Option ℤ) (reparse : Bool) (terr : Option Terrain) : CoveringTilesOptions :=
  { tileSize := 512, minzoom := none, maxzoom := mz, roundZoom := false,
    reparseOverscaled := reparse, terrain := terr }

/-- A camera position above the center of the primary world copy. -/
def cam0 : MercatorCoordinate := ⟨1/2, 1/2, 1⟩

/-- The view-center position at the center of the primary world copy. -/
def cen0 : MercatorCoordinate := ⟨1/2, 1/2, 0⟩

/-- A concrete box. -/
def box0 : Aabb := ⟨0, 0, 0, 1, 1, 0⟩

/-- C4: for every frustum, AABB and optional clipping plane, the visibility
classifier `isTileVisible` returns the plain box-vs-frustum verdict when no
plane is supplied; with a plane it returns `Full` iff both constituent tests
are `Full`, `None` iff either is `None`, and `Partial` in every other
combination. -/
theorem c4_isTileVisible_classification {F P : Type} (prim : Primitives F P)
    (frustum : F) (aabb : Aabb) :
    isTileVisible prim frustum aabb none = prim.intersectsFrustum aabb frustum ∧
    ∀ p : P,
      ((isTileVisible prim frustum aabb (some p) = IntersectionResult.iFull) ↔
        (prim.intersectsFrustum aabb frustum = IntersectionResult.iFull ∧
         prim.intersectsPlane aabb p = IntersectionResult.iFull)) ∧
      ((isTileVisible prim frustum aabb (some p) = IntersectionResult.iNone) ↔
        (prim.intersectsFrustum aabb frustum = IntersectionResult.iNone ∨
         prim.intersectsPlane aabb p = IntersectionResult.iNone)) ∧
      (prim.intersectsFrustum aabb frustum ≠ IntersectionResult.iNone →
       prim.intersectsPlane aabb p ≠ IntersectionResult.iNone →
       ¬(prim.intersectsFrustum aabb frustum = IntersectionResult.iFull ∧
         prim.intersectsPlane aabb p = IntersectionResult.iFull) →
       isTileVisible prim frustum aabb (some p) = IntersectionResult.iPartialOverlap) := by
  refine ⟨rfl, fun p => ?_⟩
  cases hr : prim.intersectsFrustum aabb frustum <;>
    cases hs : prim.intersectsPlane aabb p <;>
      simp [isTileVisible, hr, hs]

/-- Witness for C4: with a frustum test answering `Full` and a plane test
answering `Partial`, the classifier answers `Partial`. -/
theorem c4_witness :
    isTileVisible primFullFrustum () box0 (some ()) = IntersectionResult.iPartialOverlap :=
  ((c4_isTileVisible_classification primFullFrustum () box0).2 ()).2.2
    (by with_unfolding_all decide) (by with_unfolding_all decide)
    (by with_unfolding_all decide)

/-- C2: evaluation of the duplicated routine's `getTileAABB` at a terrain
configuration, and of a full covering-tiles invocation with terrain: both
throw (the claim says every such evaluation succeeds and the invocation
returns a complete list). -/
theorem c2_terrain_invocation_throws :
    mercatorCoveringTiles primPartial lodZero (transformZ 0) () none cam0 cen0
      (mkOpts (some 0) false (some terrain0)) = none ∧
    MercatorCoveringTiles.getTileAABB ⟨0, 0, 0⟩ 0 0
      (mkOpts (some 0) false (some terrain0)) = none := by
  exact ⟨rfl, rfl⟩

/-!  Structural termination of the traversal loops. -/

theorem stackWeight_cons (mz : ℤ) (e : StackEntry) (s : List StackEntry) :
    stackWeight mz (e :: s) = 5 ^ (mz - e.zoom).toNat + stackWeight mz s := by
  simp [stackWeight]

theorem stackWeight_nil (mz : ℤ) : stackWeight mz [] = 0 := rfl

theorem pow5_pos (k : ℕ) : 0 < 5 ^ k := Nat.pos_pow_of_pos k (by omega)

/-- After a subdivision the structural weight strictly decreases: four
children one level deeper weigh less than their parent, as long as the
parent is strictly above `maxZoom` depth budget. -/
theorem stackWeight_subdiv {mz zoom : ℤ} (h : zoom < mz) :
    4 * 5 ^ (mz - (zoom + 1)).toNat + 1 ≤ 5 ^ (mz - zoom).toNat := by
  have h1 : (mz - zoom).toNat = (mz - (zoom + 1)).toNat + 1 := by omega
  rw [h1, pow_succ]
  have := pow5_pos (mz - (zoom + 1)).toNat
  omega

/-- The iteration budget `stackWeight` is enough fuel: beyond it, extra fuel
never changes the loop's outcome (the loop has converged — the traversal
terminates within `stackWeight` iterations). -/
theorem coveringTilesLoop_fuel_irrelevant {F P : Type} (c : EngineCtx F P) :
    ∀ (n m : ℕ) (s : List StackEntry) (r : List CoveringTilesResult),
      stackWeight c.maxZoom s ≤ n → stackWeight c.maxZoom s ≤ m →
      coveringTilesLoop c n s r = coveringTilesLoop c m s r := by
  intro n
  induction n with
  | zero =>
    intro m s r hn _
    cases s with
    | nil => cases m <;> rfl
    | cons it rest =>
      rw [stackWeight_cons] at hn
      have := pow5_pos (c.maxZoom - it.zoom).toNat
      omega
  | succ n ih =>
    intro m s r hn hm
    cases s with
    | nil => cases m <;> rfl
    | cons it rest =>
      rw [stackWeight_cons] at hn hm
      have hp := pow5_pos (c.maxZoom - it.zoom).toNat
      cases m with
      | zero => omega
      | succ m =>
        have h1 : stackWeight c.maxZoom rest ≤ n := by omega
        have h2 : stackWeight c.maxZoom rest ≤ m := by omega
        rcases hv : nodeVisibility c it
            (c.details.getTileAABB ⟨it.x, it.y, it.zoom⟩ it.wrap c.elevation c.options) with _ | fv
        · simp only [coveringTilesLoop, hv]
          exact ih m rest r h1 h2
        · simp only [coveringTilesLoop, hv]
          by_cases hz : min (thisTileDesiredZoom c ⟨it.x, it.y, it.zoom⟩
              (c.details.getTileAABB ⟨it.x, it.y, it.zoom⟩ it.wrap c.elevation c.options))
              c.maxZoom ≤ it.zoom
          · by_cases hmin : it.zoom < c.minZoom
            · simp only [if_pos hz, if_pos hmin]
              exact ih m rest r h1 h2
            · simp only [if_pos hz, if_neg hmin]
              exact ih m rest _ h1 h2
          · simp only [if_neg hz]
            have hzoom : it.zoom < c.maxZoom :=
              lt_of_lt_of_le (lt_of_not_le hz) (min_le_right _ _)
            have hs := stackWeight_subdiv hzoom
            have hw : stackWeight c.maxZoom
                (engineChildren it (c.details.getWrap c.centerCoord ⟨it.x, it.y, it.zoom⟩ it.wrap)
                  fv ++ rest) =
                4 * 5 ^ (c.maxZoom - (it.zoom + 1)).toNat + stackWeight c.maxZoom rest := by
              simp only [engineChildren, List.cons_append, List.nil_append, stackWeight_cons]
              ring
            exact ih m _ r (by omega) (by omega)

/-- The weight of the seeded stack: at most seven roots (the primary copy
plus three world copies on each side), each weighing `5 ^ maxZoom.toNat`. -/
theorem stackWeight_seedStack (mz : ℤ) (rwc : Bool) :
    stackWeight mz (seedStack rwc) ≤ 7 * 5 ^ mz.toNat := by
  cases rwc
  · simp [seedStack, stackWeight]
  · simp [seedStack, stackWeight]
    omega

/-- C10: every invocation of the traversal engine terminates.  The loop is
fuel-indexed; with any fuel at least the structural bound `stackWeight`
(branching factor 4, one quadtree level per subdivision, subdivision only
strictly below `effectiveMaxZoom`), the outcome equals the outcome at the
bound itself — the explicit stack empties within `stackWeight` iterations.
The seeded stack's bound is at most `7 * 5 ^ effectiveMaxZoom.toNat`. -/
theorem c10_traversal_terminates {F P : Type} (c : EngineCtx F P) (n : ℕ)
    (stack : List StackEntry) (result : List CoveringTilesResult)
    (h : stackWeight c.maxZoom stack ≤ n) :
    coveringTilesLoop c n stack result =
      coveringTilesLoop c (stackWeight c.maxZoom stack) stack result ∧
    ∀ rwc : Bool, stackWeight c.maxZoom (seedStack rwc) ≤ 7 * 5 ^ c.maxZoom.toNat :=
  ⟨coveringTilesLoop_fuel_irrelevant c n (stackWeight c.maxZoom stack) stack result h le_rfl,
   fun rwc => stackWeight_seedStack c.maxZoom rwc⟩

/-- Witness for C10 at a concrete invocation: fuel 100 exceeds the
structural bound of the seeded stack, so the loop's outcome agrees with the
outcome at the bound. -/
theorem c10_traversal_terminates_witness :
    (coveringTilesLoop
        (mkEngineCtx primPartial lodZero (transformZ 1) () none cam0 cen0
          (mkOpts (some 1) true none)
          (mercatorDetails primPartial (transformZ 1) (mkOpts (some 1) true none)))
        100 (seedStack false) [] =
      coveringTilesLoop
        (mkEngineCtx primPartial lodZero (transformZ 1) () none cam0 cen0
          (mkOpts (some 1) true none)
          (mercatorDetails primPartial (transformZ 1) (mkOpts (some 1) true none)))
        (stackWeight
          (mkEngineCtx primPartial lodZero (transformZ 1) () none cam0 cen0
            (mkOpts (some 1) true none)
            (mercatorDetails primPartial (transformZ 1) (mkOpts (some 1) true none))).maxZoom
          (seedStack false)) (seedStack false) []) ∧
    ∀ rwc : Bool,
      stackWeight
          (mkEngineCtx primPartial lodZero (transformZ 1) () none cam0 cen0
            (mkOpts (some 1) true none)
            (mercatorDetails primPartial (transformZ 1) (mkOpts (some 1) true none))).maxZoom
          (seedStack rwc) ≤
        7 * 5 ^ (mkEngineCtx primPartial lodZero (transformZ 1) () none cam0 cen0
            (mkOpts (some 1) true none)
            (mercatorDetails primPartial (transformZ 1) (mkOpts (some 1) true none))).maxZoom.toNat :=
  c10_traversal_terminates _ 100 (seedStack false) [] (by with_unfolding_all decide)

/-- Invariant preservation along the engine loop: if `S` holds of every stack
entry (and survives subdivision), and every emitted entry satisfies `Q`, then
every entry of the loop's output satisfies `Q`. -/
theorem coveringTilesLoop_invariant {F P : Type} (c : EngineCtx F P)
    (S : StackEntry → Prop) (Q : CoveringTilesResult → Prop)
    (hchild : ∀ (it : StackEntry) (wrap2 : ℤ) (fv : Bool), S it →
      ¬ min (thisTileDesiredZoom c ⟨it.x, it.y, it.zoom⟩
          (c.details.getTileAABB ⟨it.x, it.y, it.zoom⟩ it.wrap c.elevation c.options))
          c.maxZoom ≤ it.zoom →
      ∀ e ∈ engineChildren it wrap2 fv, S e)
    (hemit : ∀ (it : StackEntry) (wrap2 : ℤ), S it →
      min (thisTileDesiredZoom c ⟨it.x, it.y, it.zoom⟩
          (c.details.getTileAABB ⟨it.x, it.y, it.zoom⟩ it.wrap c.elevation c.options))
          c.maxZoom ≤ it.zoom →
      ¬ it.zoom < c.minZoom →
      Q (emitEntry c it wrap2 (thisTileDesiredZoom c ⟨it.x, it.y, it.zoom⟩
          (c.details.getTileAABB ⟨it.x, it.y, it.zoom⟩ it.wrap c.elevation c.options)))) :
    ∀ (n : ℕ) (s : List StackEntry) (r : List CoveringTilesResult),
      (∀ e ∈ s, S e) → (∀ t ∈ r, Q t) → ∀ t ∈ coveringTilesLoop c n s r, Q t := by
  intro n
  induction n with
  | zero =>
    intro s r _ hr t ht
    cases s with
    | nil => exact hr t ht
    | cons it rest => exact hr t ht
  | succ n ih =>
    intro s r hs hr t ht
    cases s with
    | nil => exact hr t ht
    | cons it rest =>
      have hsit : S it := hs it (List.mem_cons_self it rest)
      have hsrest : ∀ e ∈ rest, S e := fun e he => hs e (List.mem_cons_of_mem it he)
      rcases hv : nodeVisibility c it
          (c.details.getTileAABB ⟨it.x, it.y, it.zoom⟩ it.wrap c.elevation c.options) with _ | fv
      · simp only [coveringTilesLoop, hv] at ht
        exact ih rest r hsrest hr t ht
      · simp only [coveringTilesLoop, hv] at ht
        by_cases hz : min (thisTileDesiredZoom c ⟨it.x, it.y, it.zoom⟩
            (c.details.getTileAABB ⟨it.x, it.y, it.zoom⟩ it.wrap c.elevation c.options))
            c.maxZoom ≤ it.zoom
        · by_cases hmin : it.zoom < c.minZoom
          · simp only [if_pos hz, if_pos hmin] at ht
            exact ih rest r hsrest hr t ht
          · simp only [if_pos hz, if_neg hmin] at ht
            refine ih rest _ hsrest ?_ t ht
            intro u hu
            rcases List.mem_append.mp hu with hu | hu
            · exact hr u hu
            · rcases List.mem_singleton.mp hu with rfl
              exact hemit it _ hsit hz hmin
        · simp only [if_neg hz] at ht
          refine ih _ r ?_ hr t ht
          intro e he
          rcases List.mem_append.mp he with he | he
          · exact hchild it _ fv hsit hz e he
          · exact hsrest e he

/-- Every seeded root sits at zoom 0 and is not pre-marked fully visible. -/
theorem mem_seedStack (rwc : Bool) :
    ∀ e ∈ seedStack rwc, e.zoom = 0 ∧ e.fullyVisible = false := by
  cases rwc
  · intro e he
    simp [seedStack] at he
    subst he
    exact ⟨rfl, rfl⟩
  · intro e he
    simp [seedStack] at he
    rcases he with rfl | rfl | rfl | rfl | rfl | rfl | rfl <;> exact ⟨rfl, rfl⟩

/-- C3 (amended): for every invocation of the traversal engine with
`0 ≤ effectiveMaxZoom`, every returned tile identifier satisfies
`configMinZoom ≤ canonicalZoom ≤ effectiveMaxZoom`.  (Without the
`0 ≤ effectiveMaxZoom` hypothesis the upper bound fails, see
`c3_counterexample`.) -/
theorem c3_returned_zoom_bounds {F P : Type} (prim : Primitives F P)
    (lodExpr : ℚ → ℚ → ℚ → ℚ → ℚ) (transform : Transform) (frustum : F)
    (plane : Option P) (cameraCoord centerCoord : MercatorCoordinate)
    (options : CoveringTilesOptions) (details : CoveringTilesDetails)
    (h : 0 ≤ effectiveMaxZoom transform options) :
    ∀ tid ∈ coveringTiles prim lodExpr transform frustum plane cameraCoord
        centerCoord options details,
      configMinZoom options ≤ tid.canonicalZ ∧
      tid.canonicalZ ≤ effectiveMaxZoom transform options := by
  intro tid htid
  rcases List.mem_map.mp htid with ⟨e, he, rfl⟩
  simp only [coveringTilesEntries] at he
  replace he := (List.mem_insertionSort entryLe).mp he
  set c := mkEngineCtx prim lodExpr transform frustum plane cameraCoord centerCoord options details with hc
  have hmax : c.maxZoom = effectiveMaxZoom transform options := rfl
  have hminz : c.minZoom = configMinZoom options := rfl
  refine coveringTilesLoop_invariant c
    (fun it => it.zoom ≤ c.maxZoom)
    (fun t => configMinZoom options ≤ t.tileID.canonicalZ ∧
              t.tileID.canonicalZ ≤ effectiveMaxZoom transform options)
    ?_ ?_ _ _ [] ?_ (by simp) e he
  · intro it w fv hS hz e' he'
    have hlt : it.zoom < c.maxZoom :=
      lt_of_lt_of_le (lt_of_not_le hz) (min_le_right _ _)
    simp only [engineChildren, List.mem_cons, List.not_mem_nil, or_false] at he'
    rcases he' with rfl | rfl | rfl | rfl <;> simpa using hlt
  · intro it w hS hz hmin
    refine ⟨?_, ?_⟩
    · simpa [emitEntry, hminz] using not_lt.mp hmin
    · simpa [emitEntry, hmax] using hS
  · intro e' he'
    rw [hmax, (mem_seedStack transform.renderWorldCopies e' he').1]
    exact h

/-- Counterexample for C3 as stated: with `options.maxzoom = -1` (degenerate
but accepted configuration) the engine still returns the root tile, whose
canonical zoom `0` exceeds `effectiveMaxZoom = -1`. -/
theorem c3_counterexample :
    ¬ ∀ tid ∈ coveringTiles primPartial lodZero (transformZ 0) () none cam0 cen0
        (mkOpts (some (-1)) false none)
        (mercatorDetails primPartial (transformZ 0) (mkOpts (some (-1)) false none)),
      configMinZoom (mkOpts (some (-1)) false none) ≤ tid.canonicalZ ∧
      tid.canonicalZ ≤ effectiveMaxZoom (transformZ 0) (mkOpts (some (-1)) false none) := by
  with_unfolding_all decide

/-- Witness for C3 at a concrete invocation with `effectiveMaxZoom = 1`. -/
theorem c3_witness :
    (0:ℤ) ≤ effectiveMaxZoom (transformZ 1) (mkOpts (some 1) true none) ∧
    ∀ tid ∈ coveringTiles primPartial lodZero (transformZ 1) () none cam0 cen0
        (mkOpts (some 1) true none)
        (mercatorDetails primPartial (transformZ 1) (mkOpts (some 1) true none)),
      configMinZoom (mkOpts (some 1) true none) ≤ tid.canonicalZ ∧
      tid.canonicalZ ≤ effectiveMaxZoom (transformZ 1) (mkOpts (some 1) true none) :=
  ⟨by with_unfolding_all decide,
   c3_returned_zoom_bounds primPartial lodZero (transformZ 1) () none cam0 cen0
     (mkOpts (some 1) true none)
     (mercatorDetails primPartial (transformZ 1) (mkOpts (some 1) true none))
     (by with_unfolding_all decide)⟩

/-- C6 (amended): for every emitted result entry the `overscaledZoom` of the
produced tile identifier equals the node's zoom, except when the node's zoom
equals `effectiveMaxZoom` and `reparseOverscaled` is set, in which case it
equals the node's target zoom clamped below to `0` only (it is NOT clamped
above by `effectiveMaxZoom`, see `c6_counterexample`): step-level, the
emitted `overscaledZ` is exactly `(zoom == maxZoom && reparseOverscaled) ?
thisTileDesiredZ : zoom` with `thisTileDesiredZ = max 0 …`; run-level, every
returned identifier has `overscaledZ = canonicalZ` unless
`canonicalZ = effectiveMaxZoom` and `reparseOverscaled`, where `overscaledZ`
is only guaranteed nonnegative. -/
theorem c6_overscaled_zoom {F P : Type} (prim : Primitives F P)
    (lodExpr : ℚ → ℚ → ℚ → ℚ → ℚ) (transform : Transform) (frustum : F)
    (plane : Option P) (cameraCoord centerCoord : MercatorCoordinate)
    (options : CoveringTilesOptions) (details : CoveringTilesDetails) :
    (∀ (c : EngineCtx F P) (it : StackEntry) (wrap2 : ℤ) (aabb : Aabb),
      (emitEntry c it wrap2 (thisTileDesiredZoom c ⟨it.x, it.y, it.zoom⟩ aabb)).tileID.overscaledZ =
        if it.zoom = c.maxZoom ∧ c.options.reparseOverscaled = true then
          thisTileDesiredZoom c ⟨it.x, it.y, it.zoom⟩ aabb
        else it.zoom) ∧
    (∀ tid ∈ coveringTiles prim lodExpr transform frustum plane cameraCoord
        centerCoord options details,
      tid.overscaledZ = tid.canonicalZ ∨
      (tid.canonicalZ = effectiveMaxZoom transform options ∧
       options.reparseOverscaled = true ∧ 0 ≤ tid.overscaledZ)) := by
  constructor
  · intro c it w aabb
    by_cases h1 : it.zoom = c.maxZoom <;> cases hr : c.options.reparseOverscaled <;>
      simp [emitEntry, h1, hr]
  · intro tid htid
    rcases List.mem_map.mp htid with ⟨e, he, rfl⟩
    simp only [coveringTilesEntries] at he
    replace he := (List.mem_insertionSort entryLe).mp he
    set c := mkEngineCtx prim lodExpr transform frustum plane cameraCoord centerCoord options details with hc
    have hmax : c.maxZoom = effectiveMaxZoom transform options := rfl
    have hrep : c.options.reparseOverscaled = options.reparseOverscaled := rfl
    refine coveringTilesLoop_invariant c (fun _ => True)
      (fun t => t.tileID.overscaledZ = t.tileID.canonicalZ ∨
        (t.tileID.canonicalZ = effectiveMaxZoom transform options ∧
         options.reparseOverscaled = true ∧ 0 ≤ t.tileID.overscaledZ))
      (fun _ _ _ _ _ _ _ => trivial) ?_ _ _ [] (fun _ _ => trivial) (by simp) e he
    intro it w _ hz hmin
    by_cases h1 : it.zoom = c.maxZoom
    · cases hr : options.reparseOverscaled
      · left
        have hrf : c.options.reparseOverscaled = false := hrep.trans hr
        simp [emitEntry, h1, hrf]
      · right
        have hrt : c.options.reparseOverscaled = true := hrep.trans hr
        refine ⟨by simp [emitEntry, ← hmax, h1], rfl, ?_⟩
        simp [emitEntry, h1, hrt, thisTileDesiredZoom]
    · left
      simp [emitEntry, h1]

/-- Counterexample for C6 as stated: with `coveringZoomLevel = 5`,
`maxzoom = 2` and `reparseOverscaled`, leaves at `zoom = maxZoom = 2` are
emitted with `overscaledZoom = 5 > effectiveMaxZoom` — the target is not
clamped to `≤ effectiveMaxZoom` before being used as the overscaled zoom. -/
theorem c6_counterexample :
    ¬ ∀ tid ∈ coveringTiles primPartial lodZero (transformZ 5) () none cam0 cen0
        (mkOpts (some 2) true none)
        (mercatorDetails primPartial (transformZ 5) (mkOpts (some 2) true none)),
      tid.overscaledZ ≤ effectiveMaxZoom (transformZ 5) (mkOpts (some 2) true none) := by
  with_unfolding_all decide

/-- Witness for C6: the returned overscaled tile `(5, 0, 2, 0, 0)` of the
concrete run satisfies the amended run-level disjunction. -/
theorem c6_witness :
    (⟨5, 0, 2, 0, 0⟩ : OverscaledTileID).overscaledZ =
      (⟨5, 0, 2, 0, 0⟩ : OverscaledTileID).canonicalZ ∨
    ((⟨5, 0, 2, 0, 0⟩ : OverscaledTileID).canonicalZ =
        effectiveMaxZoom (transformZ 5) (mkOpts (some 2) true none) ∧
     (mkOpts (some 2) true none).reparseOverscaled = true ∧
     0 ≤ (⟨5, 0, 2, 0, 0⟩ : OverscaledTileID).overscaledZ) :=
  (c6_overscaled_zoom primPartial lodZero (transformZ 5) () none cam0 cen0
      (mkOpts (some 2) true none)
      (mercatorDetails primPartial (transformZ 5) (mkOpts (some 2) true none))).2
    ⟨5, 0, 2, 0, 0⟩ (by with_unfolding_all decide)

/-- The `distanceSq` formula asserted by the spec as read by claim C8 (the
comparison definition for this refinement-style check, written from the
claim's words): the squared distance between the tile corner rescaled to
nominal-zoom coordinates `(x·2^(nominalZoom−zoom), y·2^(nominalZoom−zoom))`
and the view-center point scaled by `2^nominalZoom`. -/
def specClaimedDistanceSq (nominalZ zoom x y : ℤ) (center : MercatorCoordinate) : ℚ :=
  ((2:ℚ) ^ nominalZ * center.x - (x:ℚ) * (2:ℚ) ^ (nominalZ - zoom)) ^ 2 +
  ((2:ℚ) ^ nominalZ * center.y - (y:ℚ) * (2:ℚ) ^ (nominalZ - zoom)) ^ 2

/-- C8 (amended): for every emitted result entry at a node `{zoom, x, y}`,
`distanceSq` equals the squared 2D distance between the RAW tile corner
`(x, y)` (not rescaled to nominal-zoom coordinates) and the view-center point
scaled by `2^nominalZoom` and offset by half a nominal-zoom tile:
`(2^nominalZ·center.x − 1/2 − x)² + (2^nominalZ·center.y − 1/2 − y)²`.
(The spec's rescaled-corner formula fails, see `c8_counterexample`.) -/
theorem c8_distance_sq {F P : Type} (prim : Primitives F P)
    (lodExpr : ℚ → ℚ → ℚ → ℚ → ℚ) (transform : Transform) (frustum : F)
    (plane : Option P) (cameraCoord centerCoord : MercatorCoordinate)
    (options : CoveringTilesOptions) (details : CoveringTilesDetails) :
    (mkEngineCtx prim lodExpr transform frustum plane cameraCoord centerCoord
        options details).centerPoint =
      ((2:ℚ) ^ nominalZoom transform options * centerCoord.x,
       (2:ℚ) ^ nominalZoom transform options * centerCoord.y) ∧
    ∀ e ∈ coveringTilesEntries prim lodExpr transform frustum plane cameraCoord
        centerCoord options details,
      e.distanceSq =
        ((mkEngineCtx prim lodExpr transform frustum plane cameraCoord centerCoord
            options details).centerPoint.1 - 1/2 - (e.tileID.x : ℚ)) ^ 2 +
        ((mkEngineCtx prim lodExpr transform frustum plane cameraCoord centerCoord
            options details).centerPoint.2 - 1/2 - (e.tileID.y : ℚ)) ^ 2 := by
  refine ⟨rfl, ?_⟩
  intro e he
  simp only [coveringTilesEntries] at he
  replace he := (List.mem_insertionSort entryLe).mp he
  set c := mkEngineCtx prim lodExpr transform frustum plane cameraCoord centerCoord options details with hc
  refine coveringTilesLoop_invariant c (fun _ => True)
    (fun t => t.distanceSq =
      (c.centerPoint.1 - 1/2 - (t.tileID.x : ℚ)) ^ 2 +
      (c.centerPoint.2 - 1/2 - (t.tileID.y : ℚ)) ^ 2)
    (fun _ _ _ _ _ _ _ => trivial) ?_ _ _ [] (fun _ _ => trivial) (by simp) e he
  intro it w _ _ _
  simp [emitEntry]

/-- Counterexample for C8 as stated: at `nominalZoom = 0` with the view
center at `(1/2, 1/2)` the emitted root entry has `distanceSq = 0` (the code
subtracts the half-tile offset `0.5`), while the spec's formula gives
`(2^0·1/2 − 0)² + (2^0·1/2 − 0)² = 1/2`. -/
theorem c8_counterexample :
    ¬ ∀ e ∈ coveringTilesEntries primPartial lodZero (transformZ 0) () none cam0 cen0
        (mkOpts (some 0) false none)
        (mercatorDetails primPartial (transformZ 0) (mkOpts (some 0) false none)),
      e.distanceSq = specClaimedDistanceSq
        (nominalZoom (transformZ 0) (mkOpts (some 0) false none))
        e.tileID.canonicalZ e.tileID.x e.tileID.y cen0 := by
  with_unfolding_all decide

/-- Witness for C8: the emitted root entry of the concrete run satisfies the
amended formula. -/
theorem c8_witness :
    (⟨⟨0, 0, 0, 0, 0⟩, 0, 0⟩ : CoveringTilesResult).distanceSq =
      ((mkEngineCtx primPartial lodZero (transformZ 0) () none cam0 cen0
          (mkOpts (some 0) false none)
          (mercatorDetails primPartial (transformZ 0) (mkOpts (some 0) false none))).centerPoint.1 -
        1/2 - ((⟨⟨0, 0, 0, 0, 0⟩, 0, 0⟩ : CoveringTilesResult).tileID.x : ℚ)) ^ 2 +
      ((mkEngineCtx primPartial lodZero (transformZ 0) () none cam0 cen0
          (mkOpts (some 0) false none)
          (mercatorDetails primPartial (transformZ 0) (mkOpts (some 0) false none))).centerPoint.2 -
        1/2 - ((⟨⟨0, 0, 0, 0, 0⟩, 0, 0⟩ : CoveringTilesResult).tileID.y : ℚ)) ^ 2 :=
  (c8_distance_sq primPartial lodZero (transformZ 0) () none cam0 cen0
      (mkOpts (some 0) false none)
      (mercatorDetails primPartial (transformZ 0) (mkOpts (some 0) false none))).2
    ⟨⟨0, 0, 0, 0, 0⟩, 0, 0⟩ (by with_unfolding_all decide)

/-- No node is ever emitted when the target zoom is the invocation-constant
`nominalZ` and `nominalZ < minZoom`: every node either subdivides (staying at
zoom `≤ nominalZ`) or is a leaf at zoom `≤ nominalZ < minZoom` and is dropped
as too coarse. -/
theorem coveringTilesLoop_empty {F P : Type} (c : EngineCtx F P)
    (hvar : c.details.allowVariableZoom = false)
    (hnom : c.nominalZ = min (max 0 c.desiredZ) c.maxZoom)
    (hlt : c.nominalZ < c.minZoom) :
    ∀ (n : ℕ) (s : List StackEntry), (∀ e ∈ s, e.zoom ≤ c.nominalZ) →
      coveringTilesLoop c n s [] = [] := by
  intro n
  induction n with
  | zero =>
    intro s _
    cases s <;> rfl
  | succ n ih =>
    intro s hs
    cases s with
    | nil => rfl
    | cons it rest =>
      have hsit := hs it (List.mem_cons_self it rest)
      have hsrest : ∀ e ∈ rest, e.zoom ≤ c.nominalZ :=
        fun e he => hs e (List.mem_cons_of_mem it he)
      have httz : thisTileDesiredZoom c ⟨it.x, it.y, it.zoom⟩
          (c.details.getTileAABB ⟨it.x, it.y, it.zoom⟩ it.wrap c.elevation c.options) =
          max 0 c.desiredZ := by
        simp [thisTileDesiredZoom, hvar]
      rcases hv : nodeVisibility c it
          (c.details.getTileAABB ⟨it.x, it.y, it.zoom⟩ it.wrap c.elevation c.options) with _ | fv
      · simp only [coveringTilesLoop, hv]
        exact ih rest hsrest
      · simp only [coveringTilesLoop, hv]
        by_cases hz : min (thisTileDesiredZoom c ⟨it.x, it.y, it.zoom⟩
            (c.details.getTileAABB ⟨it.x, it.y, it.zoom⟩ it.wrap c.elevation c.options))
            c.maxZoom ≤ it.zoom
        · have hzn : c.nominalZ ≤ it.zoom := by
            rw [httz] at hz
            rw [hnom]
            exact hz
          have hmin : it.zoom < c.minZoom := by omega
          simp only [if_pos hz, if_pos hmin]
          exact ih rest hsrest
        · simp only [if_neg hz]
          refine ih _ ?_
          intro e he
          rcases List.mem_append.mp he with he | he
          · have hzn : it.zoom < c.nominalZ := by
              rw [httz] at hz
              rw [hnom]
              exact lt_of_not_le hz
            simp only [engineChildren, List.mem_cons, List.not_mem_nil, or_false] at he
            rcases he with rfl | rfl | rfl | rfl <;> simpa using hzn
          · exact hsrest e he

/-- C7 (amended): when the per-tile variable-zoom adjustment is disabled
(`details.allowVariableZoom = false`) and `0 ≤ effectiveMaxZoom`, an
invocation with `configMinZoom` strictly greater than `nominalZoom` returns
the empty list — every candidate leaf is dropped as too coarse.  (Both added
hypotheses are necessary, see the two parts of `c7_counterexample`.) -/
theorem c7_min_above_nominal_empty {F P : Type} (prim : Primitives F P)
    (lodExpr : ℚ → ℚ → ℚ → ℚ → ℚ) (transform : Transform) (frustum : F)
    (plane : Option P) (cameraCoord centerCoord : MercatorCoordinate)
    (options : CoveringTilesOptions) (details : CoveringTilesDetails)
    (hvar : details.allowVariableZoom = false)
    (hmax : 0 ≤ effectiveMaxZoom transform options)
    (hlt : nominalZoom transform options < configMinZoom options) :
    coveringTiles prim lodExpr transform frustum plane cameraCoord centerCoord
      options details = [] := by
  set c := mkEngineCtx prim lodExpr transform frustum plane cameraCoord centerCoord options details with hc
  have hempty := coveringTilesLoop_empty c hvar rfl hlt
    (stackWeight c.maxZoom (seedStack transform.renderWorldCopies))
    (seedStack transform.renderWorldCopies) ?_
  · simp only [coveringTiles, coveringTilesEntries]
    rw [hempty]
    rfl
  · intro e he
    rw [(mem_seedStack transform.renderWorldCopies e he).1]
    exact le_min (le_max_left 0 _) hmax

/-- The constant-two LOD oracle (a per-tile variable-zoom formula whose value
exceeds the nominal zoom, as happens in the source at high pitch for tiles
closer than the view center). -/
def lodTwo : ℚ → ℚ → ℚ → ℚ → ℚ := fun _ _ _ _ => 2

/-- Options with explicit `minzoom`, `maxzoom` and terrain; `roundZoom` and
`reparseOverscaled` off. -/
def mkOptsMin (minz maxz : Option ℤ) (terr : Option Terrain) : CoveringTilesOptions :=
  { tileSize := 512, minzoom := minz, maxzoom := maxz, roundZoom := false,
    reparseOverscaled := false, terrain := terr }

/-- Counterexample for C7 as stated, in two parts.  First, with
`options.maxzoom = -1` the nominal zoom is `-1 < 0 = configMinZoom`, yet the
root tile is returned.  Second, with a terrain provider configured (so
variable zoom is allowed), `minzoom = maxzoom = 2` and nominal zoom `1 < 2`,
a per-tile variable-zoom target of `2` drives the traversal down to zoom-2
leaves which pass the zoom floor, so the result is again non-empty. -/
theorem c7_counterexample :
    (nominalZoom (transformZ 0) (mkOpts (some (-1)) false none) <
       configMinZoom (mkOpts (some (-1)) false none) ∧
     coveringTiles primPartial lodZero (transformZ 0) () none cam0 cen0
       (mkOpts (some (-1)) false none)
       (mercatorDetails primPartial (transformZ 0) (mkOpts (some (-1)) false none)) ≠ []) ∧
    ((mercatorDetails primPartial (transformZ 1)
        (mkOptsMin (some 2) (some 2) (some terrain0))).allowVariableZoom = true ∧
     0 ≤ effectiveMaxZoom (transformZ 1) (mkOptsMin (some 2) (some 2) (some terrain0)) ∧
     nominalZoom (transformZ 1) (mkOptsMin (some 2) (some 2) (some terrain0)) <
       configMinZoom (mkOptsMin (some 2) (some 2) (some terrain0)) ∧
     coveringTiles primPartial lodTwo (transformZ 1) () none cam0 cen0
       (mkOptsMin (some 2) (some 2) (some terrain0))
       (mercatorDetails primPartial (transformZ 1)
         (mkOptsMin (some 2) (some 2) (some terrain0))) ≠ []) := by
  with_unfolding_all decide

/-- Witness for C7 at a concrete invocation: `minzoom = 3`, nominal zoom `1`,
variable zoom disabled — the result is empty. -/
theorem c7_witness :
    coveringTiles primPartial lodZero (transformZ 1) () none cam0 cen0
      (mkOptsMin (some 3) (some 5) none)
      (mercatorDetails primPartial (transformZ 1) (mkOptsMin (some 3) (some 5) none)) = [] :=
  c7_min_above_nominal_empty primPartial lodZero (transformZ 1) () none cam0 cen0
    (mkOptsMin (some 3) (some 5) none)
    (mercatorDetails primPartial (transformZ 1) (mkOptsMin (some 3) (some 5) none))
    (by with_unfolding_all decide) (by with_unfolding_all decide)
    (by with_unfolding_all decide)

/-- A root stack entry already marked fully visible (the state of any
descendant of a node the classifier answered `Full` for). -/
def fvRoot : StackEntry := ⟨0, 0, 0, 0, true⟩

/-- A details record whose `distanceToTile2d` reads the tile AABB, with
variable zoom enabled — so the AABB and the LOD formula both influence the
traversal. -/
def detsA : CoveringTilesDetails :=
  { distanceToTile2d := fun _ _ _ aabb => aabb.minX, getWrap := fun _ _ w => w,
    getTileAABB := fun _ _ _ _ => ⟨0, 0, 0, 1, 1, 0⟩, allowVariableZoom := true }

/-- A small concrete engine context over `detsA` whose LOD oracle returns the
2D tile distance itself. -/
def ctxA : EngineCtx Unit Unit :=
  { prim := primPartial, lodExpr := fun d2 _ _ _ => d2, frustum := (), plane := none,
    cameraCoord := ⟨0, 0, 1⟩, centerCoord := ⟨0, 0, 0⟩,
    options := mkOpts none false none, details := detsA,
    desiredZ := 0, minZoom := 0, maxZoom := 1, nominalZ := 0,
    cameraPoint := (0, 0), centerPoint := (0, 0), distanceZ := 1,
    distanceToCenter3d := 1, elevation := 0 }

/-- `ctxA` with only `getTileAABB` changed (the box is shifted so its `minX`
distance becomes 1). -/
def ctxAabbB : EngineCtx Unit Unit :=
  { ctxA with details := { detsA with getTileAABB := fun _ _ _ _ => ⟨1, 0, 0, 2, 1, 0⟩ } }

/-- `ctxA` with only the LOD oracle changed (constant 1). -/
def ctxLodB : EngineCtx Unit Unit :=
  { ctxA with lodExpr := fun _ _ _ _ => 1 }

/-- C9: once a node is classified `Full`, no descendant is ever discarded by
a visibility test: from any stack whose entries are all `fullyVisible`, the
traversal outcome does not depend on the intersection tests at all (first
conjunct — they may even answer `None` everywhere), while AABB construction
and per-node LOD computation still take place for every descendant: changing
only `getTileAABB` (second conjunct) or only the LOD oracle (third conjunct)
does change the outcome from a fully-visible root.  Descendants are dropped
only by the `zoom < minZoom` floor, which is the only non-emitting branch
left once visibility cannot prune (see `coveringTilesLoop`). -/
theorem c9_full_visibility_culling_only {F P : Type}
    (c : EngineCtx F P) (fr : Aabb → F → IntersectionResult)
    (pl : Aabb → P → IntersectionResult) :
    (∀ (n : ℕ) (s : List StackEntry) (r : List CoveringTilesResult),
      (∀ e ∈ s, e.fullyVisible = true) →
      coveringTilesLoop
          { c with prim := { c.prim with intersectsFrustum := fr, intersectsPlane := pl } }
          n s r =
        coveringTilesLoop c n s r) ∧
    coveringTilesLoop ctxAabbB 5 [fvRoot] [] ≠ coveringTilesLoop ctxA 5 [fvRoot] [] ∧
    coveringTilesLoop ctxLodB 5 [fvRoot] [] ≠ coveringTilesLoop ctxA 5 [fvRoot] [] := by
  refine ⟨?_, by with_unfolding_all decide, by with_unfolding_all decide⟩
  intro n
  induction n with
  | zero =>
    intro s r _
    cases s <;> rfl
  | succ n ih =>
    intro s r hs
    cases s with
    | nil => rfl
    | cons it rest =>
      have hfv : it.fullyVisible = true := (hs it (List.mem_cons_self it rest))
      have hsrest : ∀ e ∈ rest, e.fullyVisible = true :=
        fun e he => hs e (List.mem_cons_of_mem it he)
      have hvc : nodeVisibility c it
          (c.details.getTileAABB ⟨it.x, it.y, it.zoom⟩ it.wrap c.elevation c.options) =
          some true := by
        simp [nodeVisibility, hfv]
      have hvc' : nodeVisibility
          { c with prim := { c.prim with intersectsFrustum := fr, intersectsPlane := pl } } it
          (c.details.getTileAABB ⟨it.x, it.y, it.zoom⟩ it.wrap c.elevation c.options) =
          some true := by
        simp [nodeVisibility, hfv]
      have httz : ∀ (tid : TileXYZ) (aabb : Aabb),
          thisTileDesiredZoom
            { c with prim := { c.prim with intersectsFrustum := fr, intersectsPlane := pl } }
            tid aabb = thisTileDesiredZoom c tid aabb :=
        fun _ _ => rfl
      have hee : ∀ (it2 : StackEntry) (w t : ℤ),
          emitEntry
            { c with prim := { c.prim with intersectsFrustum := fr, intersectsPlane := pl } }
            it2 w t = emitEntry c it2 w t :=
        fun _ _ _ => rfl
      simp only [coveringTilesLoop, hvc, hvc', httz, hee]
      by_cases hz : min (thisTileDesiredZoom c ⟨it.x, it.y, it.zoom⟩
          (c.details.getTileAABB ⟨it.x, it.y, it.zoom⟩ it.wrap c.elevation c.options))
          c.maxZoom ≤ it.zoom
      · by_cases hmin : it.zoom < c.minZoom
        · simp only [if_pos hz, if_pos hmin]
          exact ih rest r hsrest
        · simp only [if_pos hz, if_neg hmin]
          exact ih rest _ hsrest
      · simp only [if_neg hz]
        refine ih _ r ?_
        intro e he
        rcases List.mem_append.mp he with he | he
        · simp only [engineChildren, List.mem_cons, List.not_mem_nil, or_false] at he
          rcases he with rfl | rfl | rfl | rfl <;> rfl
        · exact hsrest e he

/-- Witness for C9: under a fully-visible root, replacing both intersection
tests by constant `None` does not change the traversal outcome. -/
theorem c9_witness :
    coveringTilesLoop
        { ctxA with prim := { ctxA.prim with
            intersectsFrustum := fun _ _ => IntersectionResult.iNone,
            intersectsPlane := fun _ _ => IntersectionResult.iNone } }
        5 [fvRoot] [] =
      coveringTilesLoop ctxA 5 [fvRoot] [] :=
  (c9_full_visibility_culling_only ctxA (fun _ _ => IntersectionResult.iNone)
      (fun _ _ => IntersectionResult.iNone)).1
    5 [fvRoot] [] (by with_unfolding_all decide)

/-- C5: the returned tile-identifier list is the projection of the sorted
result entries, those entries are ordered by ascending `distanceSq`, and
stable-sorting them a second time is a no-op (the ordering step is
idempotent). -/
theorem c5_sorted_idempotent {F P : Type} (prim : Primitives F P)
    (lodExpr : ℚ → ℚ → ℚ → ℚ → ℚ) (transform : Transform) (frustum : F)
    (plane : Option P) (cameraCoord centerCoord : MercatorCoordinate)
    (options : CoveringTilesOptions) (details : CoveringTilesDetails) :
    coveringTiles prim lodExpr transform frustum plane cameraCoord centerCoord
        options details =
      (coveringTilesEntries prim lodExpr transform frustum plane cameraCoord
        centerCoord options details).map (fun a => a.tileID) ∧
    List.Sorted entryLe (coveringTilesEntries prim lodExpr transform frustum
      plane cameraCoord centerCoord options details) ∧
    List.insertionSort entryLe (coveringTilesEntries prim lodExpr transform
        frustum plane cameraCoord centerCoord options details) =
      coveringTilesEntries prim lodExpr transform frustum plane cameraCoord
        centerCoord options details := by
  have hs : List.Sorted entryLe (coveringTilesEntries prim lodExpr transform
      frustum plane cameraCoord centerCoord options details) := by
    simp only [coveringTilesEntries]
    exact List.sorted_insertionSort entryLe _
  exact ⟨rfl, hs, hs.insertionSort_eq⟩

/-- Without terrain, the duplicated routine's `getTileAABB` returns normally
and agrees with the provider's fixed version. -/
theorem mercatorGetTileAABB_no_terrain (tileID : TileXYZ) (wrap : ℤ)
    (elevation : ℚ) (options : CoveringTilesOptions)
    (h : options.terrain = none) :
    MercatorCoveringTiles.getTileAABB tileID wrap elevation options =
      some (MercatorCoveringTilesDetailsProvider.getTileAABB tileID wrap elevation options) := by
  simp [MercatorCoveringTiles.getTileAABB,
    MercatorCoveringTilesDetailsProvider.getTileAABB, h]

/-- Without terrain, the duplicated planar traversal loop computes exactly
what the parameterized engine loop computes when instantiated with the
planar provider's details, at every fuel, stack and accumulator. -/
theorem mercatorLoop_eq_engineLoop {F P : Type} (prim : Primitives F P)
    (lodExpr : ℚ → ℚ → ℚ → ℚ → ℚ) (transform : Transform) (frustum : F)
    (plane : Option P) (cameraCoord centerCoord : MercatorCoordinate)
    (options : CoveringTilesOptions) (hterr : options.terrain = none) :
    ∀ (n : ℕ) (s : List StackEntry) (r : List CoveringTilesResult),
      mercatorCoveringTilesLoop
          (mkMercatorCtx prim lodExpr transform frustum plane cameraCoord centerCoord options)
          n s r =
        some (coveringTilesLoop
          (mkEngineCtx prim lodExpr transform frustum plane cameraCoord centerCoord options
            (mercatorDetails prim transform options))
          n s r) := by
  set mc := mkMercatorCtx prim lodExpr transform frustum plane cameraCoord centerCoord options with hmc
  set ec := mkEngineCtx prim lodExpr transform frustum plane cameraCoord centerCoord options
    (mercatorDetails prim transform options) with hec
  have haabb : ∀ (tileID : TileXYZ) (w : ℤ),
      MercatorCoveringTiles.getTileAABB tileID w mc.elevation mc.options =
        some (ec.details.getTileAABB tileID w ec.elevation ec.options) :=
    fun tileID w => mercatorGetTileAABB_no_terrain tileID w transform.elevation options hterr
  have hvis : ∀ (it : StackEntry) (aabb : Aabb),
      mercatorNodeVisibility mc it aabb = nodeVisibility ec it aabb := fun _ _ => rfl
  have httz : ∀ (tileID : TileXYZ) (aabb : Aabb),
      mercatorThisTileDesiredZoom mc tileID aabb = thisTileDesiredZoom ec tileID aabb :=
    fun _ _ => rfl
  have hee : ∀ (it : StackEntry) (w t : ℤ),
      mercatorEmitEntry mc it w t = emitEntry ec it w t := fun _ _ _ => rfl
  have hch : ∀ (it : StackEntry) (w : ℤ) (fv : Bool),
      mercatorChildren it w fv = engineChildren it w fv := fun _ _ _ => rfl
  have hmaxe : mc.maxZoom = ec.maxZoom := rfl
  have hmine : mc.minZoom = ec.minZoom := rfl
  have hwrap : ∀ (tileID : TileXYZ) (w : ℤ),
      MercatorCoveringTiles.getWrap mc.centerCoord tileID w =
        ec.details.getWrap ec.centerCoord tileID w := fun _ _ => rfl
  intro n
  induction n with
  | zero =>
    intro s r
    cases s <;> rfl
  | succ n ih =>
    intro s r
    cases s with
    | nil => rfl
    | cons it rest =>
      simp only [mercatorCoveringTilesLoop, coveringTilesLoop,
        haabb ⟨it.x, it.y, it.zoom⟩ it.wrap, hvis, httz, hee, hch, hmaxe, hmine, hwrap]
      rcases hv : nodeVisibility ec it
          (ec.details.getTileAABB ⟨it.x, it.y, it.zoom⟩ it.wrap ec.elevation ec.options) with _ | fv
      · simp only [hv]
        exact ih rest r
      · simp only [hv]
        by_cases hz : min (thisTileDesiredZoom ec ⟨it.x, it.y, it.zoom⟩
            (ec.details.getTileAABB ⟨it.x, it.y, it.zoom⟩ it.wrap ec.elevation ec.options))
            ec.maxZoom ≤ it.zoom
        · by_cases hmin : it.zoom < ec.minZoom
          · simp only [if_pos hz, if_pos hmin]
            exact ih rest r
          · simp only [if_pos hz, if_neg hmin]
            exact ih rest _
        · simp only [if_neg hz]
          exact ih _ r

/-- C1 (amended): for every transform, frustum, clipping plane, camera and
center coordinate, and every options WITHOUT a terrain provider, the
duplicated planar-only `mercatorCoveringTiles` returns (normally) the same
ordered tile-identifier list as the parameterized engine `coveringTiles`
instantiated with the planar details provider.  With terrain configured the
duplicated routine instead throws while the engine returns a list, so the
unrestricted claim fails (`c1_counterexample`). -/
theorem c1_mercator_refines_engine {F P : Type} (prim : Primitives F P)
    (lodExpr : ℚ → ℚ → ℚ → ℚ → ℚ) (transform : Transform) (frustum : F)
    (plane : Option P) (cameraCoord centerCoord : MercatorCoordinate)
    (options : CoveringTilesOptions) (hterr : options.terrain = none) :
    mercatorCoveringTiles prim lodExpr transform frustum plane cameraCoord
        centerCoord options =
      some (coveringTiles prim lodExpr transform frustum plane cameraCoord
        centerCoord options (mercatorDetails prim transform options)) := by
  simp only [mercatorCoveringTiles, coveringTiles, coveringTilesEntries]
  rw [mercatorLoop_eq_engineLoop prim lodExpr transform frustum plane cameraCoord
    centerCoord options hterr]
  rfl

/-- Counterexample for C1 as stated: with a terrain provider configured the
duplicated routine throws (its `getTileAABB` hits the temporal-dead-zone
`ReferenceError`), while the engine instantiated with the (fixed) provider
returns the root tile — the two invocations differ. -/
theorem c1_counterexample :
    ¬ (mercatorCoveringTiles primPartial lodZero (transformZ 0) () none cam0 cen0
        (mkOpts (some 0) false (some terrain0)) =
      some (coveringTiles primPartial lodZero (transformZ 0) () none cam0 cen0
        (mkOpts (some 0) false (some terrain0))
        (mercatorDetails primPartial (transformZ 0) (mkOpts (some 0) false (some terrain0))))) := by
  with_unfolding_all decide

/-- Witness for C1 at a concrete terrain-free invocation. -/
theorem c1_witness :
    mercatorCoveringTiles primPartial lodZero (transformZ 0) () none cam0 cen0
        (mkOpts (some 0) false none) =
      some (coveringTiles primPartial lodZero (transformZ 0) () none cam0 cen0
        (mkOpts (some 0) false none)
        (mercatorDetails primPartial (transformZ 0) (mkOpts (some 0) false none))) :=
  c1_mercator_refines_engine primPartial lodZero (transformZ 0) () none cam0 cen0
    (mkOpts (some 0) false none) rfl
